import Mathlib

/-!
Verification of the task-aggregate service (a Go HTTP service persisting
tasks and task items in PostgreSQL) against its natural-language
specification.  The relevant source is shallowly embedded:

* `models.Task` / `models.TaskItem`    → `Task` / `TaskItem`
* `db/pg_task.go` (`taskRepository`)   → `Store.create`, `Store.delete`,
  `Store.getByID`, `Store.list` over an explicit relational `Store`
* `usecases` (`taskUsecase`)           → `createTask`, `deleteTask`,
  `getTask`, `modelToResult` generic over a `Repo`
* `handlers/http.go`                   → `handleCreateTask`,
  `handleGetTask`, `handleDeleteTask`, `bindCreateTask`,
  `toJSONFieldName`, `getValidationErrorMessage`

Go slices distinguish `nil` from an empty slice (JSON `null` vs `[]`);
they are embedded as `GoSlice α := Option (List α)`.  Machine timestamps
are `Nat` ticks of a logical clock carried by the store; int64 ids are
`Int` (the generated values stay far below 2^63, so no wraparound
arises).  Database errors are an explicit inductive; Go's `errors.Is`
against the `ErrTaskNotFound` sentinel and against `sql.ErrNoRows`
becomes discrimination on that inductive.
-/

namespace TodoApp

/-- A Go slice: `none` is the nil slice (JSON `null`), `some l` a
non-nil slice with elements `l` (JSON array). -/
def GoSlice (α : Type) : Type := Option (List α)

instance {α} [DecidableEq α] : DecidableEq (GoSlice α) :=
  inferInstanceAs (DecidableEq (Option (List α)))

instance {α} [Repr α] : Repr (GoSlice α) :=
  inferInstanceAs (Repr (Option (List α)))

/-- Elements of a slice; `len` of a nil slice is 0, as in Go. -/
def GoSlice.toList {α} : GoSlice α → List α
  | none => []
  | some l => l

/-- `make([]T, 0, n)`: a non-nil empty slice. -/
def GoSlice.make0 {α} : GoSlice α := some []

/-- `append(s, x)`: appending to a nil slice yields a non-nil slice. -/
def GoSlice.append1 {α} (s : GoSlice α) (x : α) : GoSlice α :=
  some (s.toList ++ [x])

/-- How Go's `encoding/json` marshals the slice: nil → `null`,
non-nil → a JSON array. -/
def GoSlice.jsonKind {α} : GoSlice α → String
  | none => "null"
  | some _ => "array"

/-- `models.TaskItem` (`internal/app/models/task_item.go`). -/
structure TaskItem where
  id : Int
  taskId : Int
  title : String
  completed : Bool
  createdAt : Nat
  updatedAt : Nat
deriving DecidableEq, Repr

/-- `models.Task` (`internal/app/models/task.go`); `items` is the
has-many relation slice. -/
structure Task where
  id : Int
  title : String
  description : String
  createdAt : Nat
  updatedAt : Nat
  items : GoSlice TaskItem
deriving DecidableEq, Repr

/-- A row of the `tasks` table (the `Task` columns minus the relation). -/
structure TaskRow where
  id : Int
  title : String
  description : String
  createdAt : Nat
  updatedAt : Nat
deriving DecidableEq, Repr

/-- Errors surfaced by the repository layer: the `ErrTaskNotFound`
sentinel (`db/errors.go`), the driver's `sql.ErrNoRows`, and other
pass-through driver failures. -/
inductive DBError where
  | taskNotFound
  | noRows
  | driver (msg : String)
deriving DecidableEq, Repr

def DBError.msg : DBError → String
  | .taskNotFound => "task not found"
  | .noRows => "sql: no rows in result set"
  | .driver m => m

/-- `errors.Is(err, db.ErrTaskNotFound)` at the repository level. -/
def DBError.isTaskNotFound : DBError → Bool
  | .taskNotFound => true
  | _ => false

/-- The relational state: the two tables in row-insertion order, the
two `BIGSERIAL` counters, and a logical clock read by `time.Now()`. -/
structure Store where
  taskRows : List TaskRow
  itemRows : List TaskItem
  nextTaskId : Int
  nextItemId : Int
  clock : Nat
deriving DecidableEq, Repr

/-- A freshly initialised database: both serial counters start at 1. -/
def emptyStore : Store :=
  { taskRows := [], itemRows := [], nextTaskId := 1, nextItemId := 1, clock := 0 }

/-- Projection of the aggregate onto its `tasks`-table row. -/
def Task.toRow (t : Task) : TaskRow :=
  { id := t.id, title := t.title, description := t.description,
    createdAt := t.createdAt, updatedAt := t.updatedAt }

/-- The per-item mutation inside `taskRepository.Create`: the batch
insert assigns consecutive generated ids starting at `nextId`, and the
loop before it stamps `taskId` and both timestamps. -/
def assignIds (nextId taskId : Int) (now : Nat) : List TaskItem → List TaskItem
  | [] => []
  | it :: rest =>
      { it with id := nextId, taskId := taskId, createdAt := now, updatedAt := now }
        :: assignIds (nextId + 1) taskId now rest

/-- `taskRepository.Create` (`db/pg_task.go` lines 31-62): one
transaction that stamps `now` on the task, inserts the task row reading
back its generated id, then stamps the same `now` and the task id on
every item and batch-inserts them.  `RunInTx` is modelled as a single
atomic state transition.  Returns the new store and the mutated
aggregate. -/
def Store.create (t : Task) (s : Store) : Store × Task :=
  let now := s.clock
  let tid := s.nextTaskId
  let newItems := assignIds s.nextItemId tid now t.items.toList
  let t1 : Task :=
    { t with id := tid, createdAt := now, updatedAt := now,
             items := t.items.map (fun _ => newItems) }
  ({ taskRows := s.taskRows ++ [t1.toRow],
     itemRows := s.itemRows ++ newItems,
     nextTaskId := tid + 1,
     nextItemId := s.nextItemId + (t.items.toList.length : Int),
     clock := s.clock + 1 }, t1)

/-- `taskRepository.Delete` (`db/pg_task.go` lines 65-86): one delete
against the task table; zero affected rows yields `ErrTaskNotFound`;
otherwise the `ON DELETE CASCADE` constraint of the schema
(`fk_task_items_task_id` in the migration) removes the child rows. -/
def Store.delete (taskID : Int) (s : Store) : Except DBError Unit × Store :=
  let affected := s.taskRows.countP (fun r => r.id == taskID)
  if affected = 0 then (.error .taskNotFound, s)
  else
    (.ok (),
     { s with taskRows := s.taskRows.filter (fun r => !(r.id == taskID)),
              itemRows := s.itemRows.filter (fun ir => !(ir.taskId == taskID)) })

/-- Hydration of one task row with its `Relation("Items")` rows: the
child query has no ORDER BY, so rows come back in table order; bun
leaves the destination slice nil when no child row is scanned. -/
def Store.hydrate (s : Store) (r : TaskRow) : Task :=
  let items := s.itemRows.filter (fun ir => ir.taskId == r.id)
  { id := r.id, title := r.title, description := r.description,
    createdAt := r.createdAt, updatedAt := r.updatedAt,
    items := if items.isEmpty then none else some items }

/-- `taskRepository.GetByID` (`db/pg_task.go` lines 89-103): select the
row matching the id with its items; `Scan` surfaces the driver's
`sql.ErrNoRows` unchanged when no row matches. -/
def Store.getByID (taskID : Int) (s : Store) : Except DBError Task :=
  match s.taskRows.find? (fun r => r.id == taskID) with
  | none => .error .noRows
  | some r => .ok (s.hydrate r)

/-- `ORDER BY t.created_at DESC`: later timestamps first. -/
def createdDesc (a b : TaskRow) : Prop := b.createdAt ≤ a.createdAt

instance : DecidableRel createdDesc := fun a b => Nat.decLe b.createdAt a.createdAt

instance : IsTotal TaskRow createdDesc :=
  ⟨fun a b => Nat.le_total b.createdAt a.createdAt⟩

instance : IsTrans TaskRow createdDesc :=
  ⟨fun _ _ _ hab hbc => Nat.le_trans hbc hab⟩

/-- `taskRepository.List` (`db/pg_task.go` lines 106-120): every task
with its items, ordered by `created_at` descending; an empty table is a
successful empty result, not an error. -/
def Store.list (s : Store) : Except DBError (List Task) :=
  .ok ((List.insertionSort createdDesc s.taskRows).map s.hydrate)

/-- `usecases.CreateTaskItemParams` (`usecases/task_params.go`). -/
structure CreateTaskItemParams where
  title : String
  completed : Bool
deriving DecidableEq, Repr

/-- `usecases.CreateTaskParams` (`usecases/task_params.go`). -/
structure CreateTaskParams where
  title : String
  description : String
  items : GoSlice CreateTaskItemParams
deriving DecidableEq, Repr

/-- Errors surfaced by the use-case: the `errors.New` validation errors
it creates itself, and repository errors passed through unwrapped. -/
inductive AppError where
  | validation (msg : String)
  | db (e : DBError)
deriving DecidableEq, Repr

def AppError.msg : AppError → String
  | .validation m => m
  | .db e => e.msg

/-- `errors.Is(err, sql.ErrNoRows)` on a use-case error: holds exactly
for a passed-through driver no-rows error. -/
def AppError.isNoRows : AppError → Bool
  | .db .noRows => true
  | _ => false

/-- `errors.Is(err, db.ErrTaskNotFound)` on a use-case error. -/
def AppError.isTaskNotFound : AppError → Bool
  | .db .taskNotFound => true
  | _ => false

/-- `usecases.TaskItemResult` (`usecases/task_usecase.go`). -/
structure TaskItemResult where
  id : Int
  taskId : Int
  title : String
  completed : Bool
  createdAt : Nat
  updatedAt : Nat
deriving DecidableEq, Repr

/-- `usecases.TaskResult`. -/
structure TaskResult where
  id : Int
  title : String
  description : String
  createdAt : Nat
  updatedAt : Nat
  items : GoSlice TaskItemResult
deriving DecidableEq, Repr

/-- `usecases.TaskListResult`. -/
structure TaskListResult where
  tasks : GoSlice TaskResult
deriving DecidableEq, Repr

/-- The four-method `db.TaskRepository` interface, generic in the state
it owns; the use-case depends only on this record. -/
structure Repo (σ : Type) where
  create : Task → σ → σ × Task
  delete : Int → σ → Except DBError Unit × σ
  getByID : Int → σ → Except DBError Task
  list : σ → Except DBError (List Task)

/-- The Postgres-backed implementation of the interface. -/
def pgRepo : Repo Store :=
  { create := Store.create, delete := Store.delete,
    getByID := Store.getByID, list := Store.list }

/-- A repository whose reads always fail with a driver error; used to
show that validation short-circuits never reach the repository. -/
def brokenRepo : Repo Store :=
  { create := fun t s => (s, t),
    delete := fun _ s => (.error (.driver "boom"), s),
    getByID := fun _ _ => .error (.driver "boom"),
    list := fun _ => .error (.driver "boom") }

/-- The per-item field copy inside `taskUsecase.modelToResult`. -/
def itemResultOfModel (it : TaskItem) : TaskItemResult :=
  { id := it.id, taskId := it.taskId, title := it.title,
    completed := it.completed, createdAt := it.createdAt, updatedAt := it.updatedAt }

/-- `taskUsecase.modelToResult` (`usecases/task_usecase.go` lines
215-236): `make([]TaskItemResult, 0, len)` then an append loop, so the
result slice is always non-nil. -/
def modelToResult (t : Task) : TaskResult :=
  let items := t.items.toList.foldl
    (fun acc it => acc.append1 (itemResultOfModel it)) GoSlice.make0
  { id := t.id, title := t.title, description := t.description,
    createdAt := t.createdAt, updatedAt := t.updatedAt, items := items }

/-- The item-construction loop of `taskUsecase.CreateTask`: each item
title must be non-empty; unset model fields keep Go zero values. -/
def buildItems : List CreateTaskItemParams → Except AppError (List TaskItem)
  | [] => .ok []
  | p :: ps =>
      if p.title = "" then .error (.validation "task item title is required")
      else
        match buildItems ps with
        | .error e => .error e
        | .ok rest =>
            .ok ({ id := 0, taskId := 0, title := p.title, completed := p.completed,
                   createdAt := 0, updatedAt := 0 } :: rest)

/-- `taskUsecase.CreateTask` (`usecases/task_usecase.go` lines 140-172):
validate the task title and every item title, build the model, call the
repository, and convert the mutated model to a result. -/
def createTask {σ} (repo : Repo σ) (p : CreateTaskParams) (s : σ) :
    Except AppError TaskResult × σ :=
  if p.title = "" then (.error (.validation "task title is required"), s)
  else
    match buildItems p.items.toList with
    | .error e => (.error e, s)
    | .ok items =>
        let t : Task := { id := 0, title := p.title, description := p.description,
                          createdAt := 0, updatedAt := 0, items := some items }
        let r := repo.create t s
        (.ok (modelToResult r.2), r.1)

/-- `taskUsecase.DeleteTask` (lines 175-181): reject non-positive ids
before touching the repository. -/
def deleteTask {σ} (repo : Repo σ) (taskID : Int) (s : σ) :
    Except AppError Unit × σ :=
  if taskID ≤ 0 then (.error (.validation "invalid task ID"), s)
  else
    match repo.delete taskID s with
    | (.error e, s1) => (.error (.db e), s1)
    | (.ok _, s1) => (.ok (), s1)

/-- `taskUsecase.GetTask` (lines 184-195): reject non-positive ids
before touching the repository; pass repository errors through. -/
def getTask {σ} (repo : Repo σ) (taskID : Int) (s : σ) :
    Except AppError TaskResult :=
  if taskID ≤ 0 then .error (.validation "invalid task ID")
  else
    match repo.getByID taskID s with
    | .error e => .error (.db e)
    | .ok t => .ok (modelToResult t)

/-- `taskUsecase.ListTasks` (lines 198-212). -/
def listTasks {σ} (repo : Repo σ) (s : σ) : Except AppError TaskListResult :=
  match repo.list s with
  | .error e => .error (.db e)
  | .ok ts =>
      .ok { tasks := ts.foldl (fun acc t => acc.append1 (modelToResult t)) GoSlice.make0 }

/-- `handlers.taskItemHTTPResponse` (`handlers/http.go`). -/
structure taskItemHTTPResponse where
  id : Int
  taskId : Int
  title : String
  completed : Bool
  createdAt : Nat
  updatedAt : Nat
deriving DecidableEq, Repr

/-- `handlers.taskHTTPResponse`. -/
structure taskHTTPResponse where
  id : Int
  title : String
  description : String
  createdAt : Nat
  updatedAt : Nat
  items : GoSlice taskItemHTTPResponse
deriving DecidableEq, Repr

/-- `handlers.taskListHTTPResponse`. -/
structure taskListHTTPResponse where
  tasks : GoSlice taskHTTPResponse
deriving DecidableEq, Repr

/-- The JSON bodies the handlers emit. -/
inductive ResponseBody where
  | noContent
  | errorEnvelope (msg : String)
  | fieldMap (entries : List (String × String))
  | task (t : taskHTTPResponse)
  | taskList (l : taskListHTTPResponse)
deriving DecidableEq, Repr

/-- An HTTP response: status code plus body. -/
structure HttpResponse where
  status : Nat
  body : ResponseBody
deriving DecidableEq, Repr

/-- `handlers.createTaskItemHTTPRequest` after a successful bind. -/
structure createTaskItemHTTPRequest where
  title : String
  completed : Bool
deriving DecidableEq, Repr

/-- `handlers.createTaskHTTPRequest` after a successful bind. -/
structure createTaskHTTPRequest where
  title : String
  description : String
  items : GoSlice createTaskItemHTTPRequest
deriving DecidableEq, Repr

/-- One decoded JSON item object: each field present or absent. -/
structure RawItem where
  title : Option String
  completed : Option Bool
deriving DecidableEq, Repr

/-- A decoded JSON request body for POST /api/tasks. -/
structure RawBody where
  title : Option String
  description : Option String
  items : Option (List RawItem)
deriving DecidableEq, Repr

/-- A request body as received: either syntactically malformed JSON or
a decoded object. -/
inductive RequestBody where
  | malformed (raw : String)
  | parsed (b : RawBody)
deriving DecidableEq, Repr

/-- One entry of `validator.ValidationErrors`: the struct field name
and the failed tag. -/
structure FieldError where
  field : String
  tag : String
deriving DecidableEq, Repr

/-- Outcome of `c.ShouldBindJSON`. -/
inductive BindResult where
  | ok (req : createTaskHTTPRequest)
  | failed (errs : List FieldError)
  | badJSON (msg : String)
deriving DecidableEq, Repr

/-- The `binding:"required"` check on a string field: it fails when the
field is absent or holds the zero value (the empty string).  Both the
task title and the item title carry the struct field name `Title`. -/
def requiredErrs (o : Option String) : List FieldError :=
  match o with
  | none => [{ field := "Title", tag := "required" }]
  | some t => if t = "" then [{ field := "Title", tag := "required" }] else []

/-- Modelled from the spec: the semantics of gin's `ShouldBindJSON`
with the go-playground validator (a third-party library, not part of
this repository) on `createTaskHTTPRequest`.  Per spec section 4.3, the
required field is the `title` on the task and on each item; malformed
JSON is a non-`ValidationErrors` failure; absent JSON fields decode to
Go zero values (`""`, `false`, nil slice). -/
def bindCreateTask (body : RequestBody) : BindResult :=
  match body with
  | .malformed msg => .badJSON msg
  | .parsed b =>
      let errs := requiredErrs b.title ++
        (b.items.getD []).foldr (fun it acc => requiredErrs it.title ++ acc) []
      if errs.isEmpty then
        .ok { title := b.title.getD "", description := b.description.getD "",
              items :=
                match b.items with
                | none => none
                | some l =>
                    some (l.map fun it =>
                      { title := it.title.getD "", completed := it.completed.getD false }) }
      else .failed errs

/-- `handlers.toJSONFieldName`: lowercase the first letter
(`strings.ToLower(field[0:1]) + field[1:]` on ASCII field names). -/
def toJSONFieldName (field : String) : String :=
  match field.toList with
  | [] => field
  | c :: rest => String.mk (c.toLower :: rest)

/-- `handlers.getValidationErrorMessage` (`http.go` lines 280-301): the
switch on the validation tag. -/
def getValidationErrorMessage (tag : String) : String :=
  if tag = "required" then "required"
  else if tag = "email" then "invalid email"
  else if tag = "min" then "too short"
  else if tag = "max" then "too long"
  else if tag = "len" then "invalid length"
  else if tag = "numeric" then "must be numeric"
  else if tag = "alpha" then "must contain only letters"
  else if tag = "alphanum" then "must contain only letters and numbers"
  else "invalid"

/-- `strconv.ParseInt(s, 10, 64)`: optional sign, decimal digits,
signed 64-bit range. -/
def parseInt64 (str : String) : Option Int :=
  let cs := str.toList
  let signed : Bool × List Char :=
    match cs with
    | '-' :: rest => (true, rest)
    | '+' :: rest => (false, rest)
    | _ => (false, cs)
  match signed.2 with
  | [] => none
  | ds =>
      match ds.foldl
        (fun acc c =>
          match acc with
          | none => none
          | some n => if c.isDigit then some (n * 10 + (c.toNat - 48)) else none)
        (some 0) with
      | none => none
      | some n =>
          let v : Int := if signed.1 then -(n : Int) else (n : Int)
          if v < -(2 ^ 63) ∨ (2 ^ 63 - 1 : Int) < v then none else some v

/-- `HTTPTaskHandler.requestToParams` (`http.go` lines 149-163). -/
def requestToParams (req : createTaskHTTPRequest) : CreateTaskParams :=
  { title := req.title, description := req.description,
    items := req.items.toList.foldl
      (fun acc it =>
        acc.append1 ({ title := it.title, completed := it.completed } : CreateTaskItemParams))
      GoSlice.make0 }

/-- The per-item copy inside `HTTPTaskHandler.resultToResponse`. -/
def itemResultToResponse (it : TaskItemResult) : taskItemHTTPResponse :=
  { id := it.id, taskId := it.taskId, title := it.title,
    completed := it.completed, createdAt := it.createdAt, updatedAt := it.updatedAt }

/-- `HTTPTaskHandler.resultToResponse` (`http.go` lines 166-187):
`make` + append, so the response items slice is always non-nil. -/
def resultToResponse (result : TaskResult) : taskHTTPResponse :=
  let items := result.items.toList.foldl
    (fun acc it => acc.append1 (itemResultToResponse it)) GoSlice.make0
  { id := result.id, title := result.title, description := result.description,
    createdAt := result.createdAt, updatedAt := result.updatedAt, items := items }

/-- `HTTPTaskHandler.listResultToResponse` (`http.go` lines 190-199). -/
def listResultToResponse (result : TaskListResult) : taskListHTTPResponse :=
  { tasks := result.tasks.toList.foldl
      (fun acc t => acc.append1 (resultToResponse t)) GoSlice.make0 }

/-- `handlers.respondWithValidationError` (`http.go` lines 252-267) as
applied to a bind failure: `ValidationErrors` become a 400 field map,
anything else a 400 generic envelope. -/
def respondWithValidationError (r : BindResult) : HttpResponse :=
  match r with
  | .failed errs =>
      { status := 400,
        body := .fieldMap (errs.map fun fe =>
          (toJSONFieldName fe.field, getValidationErrorMessage fe.tag)) }
  | .badJSON msg => { status := 400, body := .errorEnvelope msg }
  | .ok _ => { status := 400, body := .errorEnvelope "" }

/-- `HTTPTaskHandler.CreateTask` (`http.go` lines 60-82): bind failures
get a 400; every use-case error gets a 500; success a 201. -/
def handleCreateTask {σ} (repo : Repo σ) (body : RequestBody) (s : σ) :
    HttpResponse × σ :=
  match bindCreateTask body with
  | .badJSON msg => (respondWithValidationError (.badJSON msg), s)
  | .failed errs => (respondWithValidationError (.failed errs), s)
  | .ok req =>
      match createTask repo (requestToParams req) s with
      | (.error e, s1) => ({ status := 500, body := .errorEnvelope e.msg }, s1)
      | (.ok r, s1) => ({ status := 201, body := .task (resultToResponse r) }, s1)

/-- `HTTPTaskHandler.GetTask` (`http.go` lines 85-108): unparseable id
→ 400; `errors.Is(err, sql.ErrNoRows)` → 404; any other error → 500. -/
def handleGetTask {σ} (repo : Repo σ) (idStr : String) (s : σ) : HttpResponse :=
  match parseInt64 idStr with
  | none => { status := 400, body := .errorEnvelope "invalid task ID" }
  | some id =>
      match getTask repo id s with
      | .error e =>
          if e.isNoRows then { status := 404, body := .errorEnvelope "task not found" }
          else { status := 500, body := .errorEnvelope e.msg }
      | .ok r => { status := 200, body := .task (resultToResponse r) }

/-- `HTTPTaskHandler.DeleteTask` (`http.go` lines 126-146): unparseable
id → 400; `errors.Is(err, db.ErrTaskNotFound)` → 404; any other error →
500; success → 204. -/
def handleDeleteTask {σ} (repo : Repo σ) (idStr : String) (s : σ) :
    HttpResponse × σ :=
  match parseInt64 idStr with
  | none => ({ status := 400, body := .errorEnvelope "invalid task ID" }, s)
  | some id =>
      match deleteTask repo id s with
      | (.error e, s1) =>
          if e.isTaskNotFound then
            ({ status := 404, body := .errorEnvelope "task not found" }, s1)
          else ({ status := 500, body := .errorEnvelope e.msg }, s1)
      | (.ok _, s1) => ({ status := 204, body := .noContent }, s1)

/-- Database well-formedness: the serial counters are at least 1 and
dominate every assigned id, and both tables are in ascending-id
(insertion) order — exactly what `BIGSERIAL` columns maintain. -/
def Store.WF (s : Store) : Prop :=
  1 ≤ s.nextTaskId ∧ 1 ≤ s.nextItemId
    ∧ s.taskRows.Pairwise (fun a b => a.id < b.id)
    ∧ (∀ r ∈ s.taskRows, r.id < s.nextTaskId)
    ∧ s.itemRows.Pairwise (fun a b => a.id < b.id)
    ∧ (∀ ir ∈ s.itemRows, ir.id < s.nextItemId)

/-- A store holding one task (id 1) with two items (ids 1, 2). -/
def demoStore : Store :=
  { taskRows := [{ id := 1, title := "Shopping", description := "Weekly shopping",
                   createdAt := 0, updatedAt := 0 }],
    itemRows := [{ id := 1, taskId := 1, title := "Buy milk", completed := false,
                   createdAt := 0, updatedAt := 0 },
                 { id := 2, taskId := 1, title := "Buy bread", completed := true,
                   createdAt := 0, updatedAt := 0 }],
    nextTaskId := 2, nextItemId := 3, clock := 1 }

/-- The aggregate `GetByID 1` yields on `demoStore`. -/
def demoTask : Task :=
  { id := 1, title := "Shopping", description := "Weekly shopping",
    createdAt := 0, updatedAt := 0,
    items := some [{ id := 1, taskId := 1, title := "Buy milk", completed := false,
                     createdAt := 0, updatedAt := 0 },
                   { id := 2, taskId := 1, title := "Buy bread", completed := true,
                     createdAt := 0, updatedAt := 0 }] }

/-- The caller-side aggregate of repository-level scenario 1 of the
spec: two items, ids not yet assigned. -/
def demoInput : Task :=
  { id := 0, title := "Shopping", description := "Weekly shopping",
    createdAt := 0, updatedAt := 0,
    items := some [{ id := 0, taskId := 0, title := "Buy milk", completed := false,
                     createdAt := 0, updatedAt := 0 },
                   { id := 0, taskId := 0, title := "Buy bread", completed := true,
                     createdAt := 0, updatedAt := 0 }] }

/-- Create parameters with an empty task title. -/
def demoEmptyParams : CreateTaskParams :=
  { title := "", description := "", items := none }

deriving instance DecidableEq for Except

/-- Every item mutated by the create loop carries a positive generated
id, the parent task id, and the shared `now` on both timestamps. -/
theorem assignIds_mem_spec (l : List TaskItem) :
    ∀ (n tid : Int) (now : Nat), 1 ≤ n →
      ∀ it ∈ assignIds n tid now l,
        1 ≤ it.id ∧ it.taskId = tid ∧ it.createdAt = now ∧ it.updatedAt = now := by
  induction l with
  | nil =>
      intro n tid now hn it hit
      simp [assignIds] at hit
  | cons x xs ih =>
      intro n tid now hn it hit
      simp only [assignIds, List.mem_cons] at hit
      rcases hit with h | h
      · subst h
        exact ⟨hn, rfl, rfl, rfl⟩
      · exact ih (n + 1) tid now (by omega) it h

/-- Claim C1: repository `Create` runs as one atomic transition that
stamps a single `now` on both task timestamps, inserts the task row
with the generated id read back, stamps the same `now` and the task id
on every item and appends the items in one batch; on success the
returned aggregate has a non-zero id and every item has a non-zero id,
`task_id` equal to the task id, and equal timestamps. -/
theorem create_assigns_ids_and_timestamps (s : Store) (t : Task)
    (h1 : 1 ≤ s.nextTaskId) (h2 : 1 ≤ s.nextItemId) :
    (Store.create t s).2.id ≠ 0
      ∧ (Store.create t s).2.createdAt = s.clock
      ∧ (Store.create t s).2.updatedAt = s.clock
      ∧ (∀ it ∈ (Store.create t s).2.items.toList,
          it.id ≠ 0 ∧ it.taskId = (Store.create t s).2.id
            ∧ it.createdAt = s.clock ∧ it.updatedAt = s.clock)
      ∧ (Store.create t s).1.taskRows = s.taskRows ++ [(Store.create t s).2.toRow]
      ∧ (Store.create t s).1.itemRows = s.itemRows ++ (Store.create t s).2.items.toList := by
  have hid : (Store.create t s).2.id = s.nextTaskId := rfl
  refine ⟨?_, rfl, rfl, ?_, rfl, ?_⟩
  · rw [hid]
    omega
  · intro it hit
    rw [hid]
    cases h : t.items with
    | none =>
        simp [Store.create, h, GoSlice.toList] at hit
    | some l =>
        simp only [Store.create, h, Option.map_some', GoSlice.toList] at hit
        obtain ⟨ha, hb, hc, hd⟩ :=
          assignIds_mem_spec _ s.nextItemId s.nextTaskId s.clock h2 it hit
        exact ⟨by omega, hb, hc, hd⟩
  · cases h : t.items with
    | none => simp [Store.create, h, Option.map, GoSlice.toList, assignIds]
    | some l => simp [Store.create, h, Option.map, GoSlice.toList]

/-- The hypotheses of `create_assigns_ids_and_timestamps` hold of the
freshly initialised store, and creating the two-item demo aggregate
there yields a non-zero task id. -/
theorem create_assigns_ids_witness :
    (1 ≤ emptyStore.nextTaskId) ∧ (1 ≤ emptyStore.nextItemId)
      ∧ (Store.create demoInput emptyStore).2.id ≠ 0 :=
  ⟨by decide, by decide,
   (create_assigns_ids_and_timestamps emptyStore demoInput (by decide) (by decide)).1⟩

/-- Claim C2 counterexample: on the empty store, `GetByID 999` fails
with the driver's `sql.ErrNoRows`, which is a different error from the
`ErrTaskNotFound` sentinel and on which `errors.Is(err,
ErrTaskNotFound)` does not hold. -/
theorem getById_missing_counterexample :
    Store.getByID 999 emptyStore = .error .noRows
      ∧ DBError.noRows ≠ DBError.taskNotFound
      ∧ DBError.isTaskNotFound .noRows = false :=
  ⟨rfl, by decide, rfl⟩

/-- Claim C2 (amended): for an id matching no task row, `GetByID`
passes the underlying driver error `sql.ErrNoRows` through unchanged
(so `errors.Is` against `ErrTaskNotFound` does not hold on it); the
use-case passes it on for positive ids, and it is that driver error the
adapter recognises. -/
theorem getById_missing_passes_driver_error (s : Store) (taskID : Int)
    (h : ∀ r ∈ s.taskRows, r.id ≠ taskID) :
    Store.getByID taskID s = .error .noRows
      ∧ DBError.isTaskNotFound DBError.noRows = false
      ∧ (0 < taskID → getTask pgRepo taskID s = .error (.db .noRows))
      ∧ AppError.isNoRows (.db .noRows) = true := by
  have hfind : s.taskRows.find? (fun r => r.id == taskID) = none := by
    apply List.find?_eq_none.mpr
    intro r hr
    simpa using h r hr
  refine ⟨?_, rfl, ?_, rfl⟩
  · simp [Store.getByID, hfind]
  · intro hpos
    have hne : ¬ taskID ≤ 0 := by omega
    simp [getTask, pgRepo, Store.getByID, hfind, hne]

/-- The hypothesis of `getById_missing_passes_driver_error` holds of
the empty store, where `GetByID 7` yields the driver error. -/
theorem getById_missing_witness :
    Store.getByID 7 emptyStore = .error .noRows :=
  (getById_missing_passes_driver_error emptyStore 7
    (by intro r hr; simp [emptyStore] at hr)).1

/-- A string field passing the `required` check is present and
non-empty. -/
theorem requiredErrs_eq_nil {o : Option String} (h : requiredErrs o = []) :
    o.getD "" ≠ "" := by
  cases o with
  | none => simp [requiredErrs] at h
  | some t =>
      simp only [requiredErrs] at h
      by_cases ht : t = ""
      · rw [if_pos ht] at h
        cases h
      · simpa using ht

/-- If the per-item `required` checks produce no error, every item
passes the check individually. -/
theorem foldrRequired_eq_nil (l : List RawItem)
    (h : (l.foldr (fun it acc => requiredErrs it.title ++ acc) []) = []) :
    ∀ it ∈ l, requiredErrs it.title = [] := by
  induction l with
  | nil => simp
  | cons x xs ih =>
      intro it hit
      simp only [List.foldr_cons] at h
      obtain ⟨h1, h2⟩ := List.append_eq_nil.mp h
      rcases List.mem_cons.mp hit with rfl | hmem
      · exact h1
      · exact ih h2 it hmem

/-- Claim C3 counterexample: a GET request with the parseable but
non-positive path id `"0"` is answered with status 500, not the claimed
400 — the handler maps every use-case error other than a not-found one
to an internal-server-error response. -/
theorem usecase_validation_status_counterexample :
    (handleGetTask pgRepo "0" emptyStore).status = 500
      ∧ (handleGetTask pgRepo "0" emptyStore).status ≠ 400 := by
  constructor
  · rfl
  · decide

/-- Claim C3 (amended): a use-case-level validation failure that the
adapter can actually reach — a parseable non-positive path id in
GetTask or DeleteTask — is answered with status 500; empty task or item
titles never reach the use-case through the adapter because the
`required` binding already rejects them (any successfully bound request
has non-empty task and item titles). -/
theorem usecase_validation_maps_to_500 :
    (∀ (σ : Type) (repo : Repo σ) (s : σ) (idStr : String) (taskID : Int),
        parseInt64 idStr = some taskID → taskID ≤ 0 →
        (handleGetTask repo idStr s).status = 500)
      ∧ (∀ (σ : Type) (repo : Repo σ) (s : σ) (idStr : String) (taskID : Int),
          parseInt64 idStr = some taskID → taskID ≤ 0 →
          ((handleDeleteTask repo idStr s).1).status = 500)
      ∧ (∀ (body : RequestBody) (req : createTaskHTTPRequest),
          bindCreateTask body = .ok req →
          req.title ≠ "" ∧ ∀ ip ∈ req.items.toList, ip.title ≠ "") := by
  refine ⟨?_, ?_, ?_⟩
  · intro σ repo s idStr taskID hp hle
    simp [handleGetTask, hp, getTask, hle, AppError.isNoRows]
  · intro σ repo s idStr taskID hp hle
    simp [handleDeleteTask, hp, deleteTask, hle, AppError.isTaskNotFound]
  · intro body req hok
    cases body with
    | malformed m => simp [bindCreateTask] at hok
    | parsed b =>
        simp only [bindCreateTask] at hok
        by_cases he : (requiredErrs b.title ++
            (b.items.getD []).foldr (fun it acc => requiredErrs it.title ++ acc) []).isEmpty
        · rw [if_pos he] at hok
          rw [List.isEmpty_iff] at he
          obtain ⟨h1, h2⟩ := List.append_eq_nil.mp he
          cases hok
          constructor
          · exact requiredErrs_eq_nil h1
          · intro ip hip
            cases hbi : b.items with
            | none => simp [hbi, GoSlice.toList] at hip
            | some l =>
                rw [hbi] at hip
                simp only [GoSlice.toList, List.mem_map] at hip
                obtain ⟨it, hitmem, rfl⟩ := hip
                have hreq : requiredErrs it.title = [] := by
                  apply foldrRequired_eq_nil _ _ it hitmem
                  rw [hbi] at h2
                  simpa using h2
                exact requiredErrs_eq_nil hreq
        · rw [if_neg he] at hok
          cases hok

/-- The hypotheses of `usecase_validation_maps_to_500` hold at the
concrete path id `"0"`, where the GET handler answers 500. -/
theorem usecase_validation_witness :
    parseInt64 "0" = some 0
      ∧ (handleGetTask pgRepo "0" emptyStore).status = 500 :=
  ⟨by decide,
   usecase_validation_maps_to_500.1 Store pgRepo emptyStore "0" 0 (by decide) (by decide)⟩

/-- Hydrating a task row from an item table in ascending-id order
yields items in ascending-id order: the relation query selects a
subsequence of the table. -/
theorem hydrate_items_sorted (s : Store)
    (hs : s.itemRows.Pairwise (fun a b => a.id < b.id)) (r : TaskRow) :
    (Store.hydrate s r).items.toList.Pairwise (fun a b => a.id < b.id) := by
  have hf : (s.itemRows.filter (fun ir => ir.taskId == r.id)).Pairwise
      (fun a b => a.id < b.id) :=
    List.Pairwise.sublist (List.filter_sublist _) hs
  simp only [Store.hydrate]
  by_cases he : (s.itemRows.filter (fun ir => ir.taskId == r.id)).isEmpty
  · simp [he, GoSlice.toList]
  · simpa [he, GoSlice.toList] using hf

/-- Claim C4: on a well-formed store, the aggregate returned by
`GetByID` carries its items sorted by item id ascending, and so does
every task returned by `List`. -/
theorem items_sorted_ascending (s : Store) (hwf : s.WF) :
    (∀ (taskID : Int) (t : Task), Store.getByID taskID s = .ok t →
        t.items.toList.Pairwise (fun a b => a.id < b.id))
      ∧ (∀ rows, Store.list s = .ok rows →
          ∀ t ∈ rows, t.items.toList.Pairwise (fun a b => a.id < b.id)) := by
  obtain ⟨-, -, -, -, hs, -⟩ := hwf
  constructor
  · intro taskID t hget
    unfold Store.getByID at hget
    cases hfind : s.taskRows.find? (fun r => r.id == taskID) with
    | none => rw [hfind] at hget; cases hget
    | some r =>
        rw [hfind] at hget
        injection hget with hgt
        subst hgt
        exact hydrate_items_sorted s hs r
  · intro rows hlist t ht
    have hrows : rows = (List.insertionSort createdDesc s.taskRows).map s.hydrate := by
      simpa [Store.list] using hlist.symm
    subst hrows
    rcases List.mem_map.mp ht with ⟨r, -, rfl⟩
    exact hydrate_items_sorted s hs r

/-- The demo store is well-formed. -/
theorem demoStore_WF : demoStore.WF := by
  refine ⟨by decide, by decide, ?_, ?_, ?_, ?_⟩ <;> decide

/-- The well-formedness hypothesis of `items_sorted_ascending` holds of
the demo store, and `GetByID 1` returns the demo aggregate with items
sorted by id. -/
theorem items_sorted_witness :
    Store.getByID 1 demoStore = .ok demoTask
      ∧ demoTask.items.toList.Pairwise (fun a b => a.id < b.id) :=
  ⟨rfl, (items_sorted_ascending demoStore demoStore_WF).1 1 demoTask rfl⟩

/-- A create input containing an empty item title makes the item loop
of the use-case fail with its validation error. -/
theorem buildItems_empty_title (l : List CreateTaskItemParams)
    (h : ∃ ip ∈ l, ip.title = "") :
    buildItems l = .error (.validation "task item title is required") := by
  induction l with
  | nil =>
      obtain ⟨ip, hmem, -⟩ := h
      cases hmem
  | cons x xs ih =>
      obtain ⟨ip, hmem, hemp⟩ := h
      rcases List.mem_cons.mp hmem with rfl | hmem
      · simp [buildItems, hemp]
      · by_cases hx : x.title = ""
        · simp [buildItems, hx]
        · simp [buildItems, hx, ih ⟨ip, hmem, hemp⟩]

/-- Claim C5: for any create input with an empty task title or an empty
item title, the use-case fails with a validation error, the outcome is
independent of the repository (so `Create` is never invoked), and the
store is returned unchanged (no rows inserted). -/
theorem createTask_validation_guard {σ : Type} (repo repo2 : Repo σ) (s : σ)
    (p : CreateTaskParams)
    (h : p.title = "" ∨ ∃ ip ∈ p.items.toList, ip.title = "") :
    (∃ m, createTask repo p s = (.error (.validation m), s))
      ∧ createTask repo p s = createTask repo2 p s := by
  by_cases ht : p.title = ""
  · refine ⟨⟨"task title is required", ?_⟩, ?_⟩ <;> simp [createTask, ht]
  · have hitems : ∃ ip ∈ p.items.toList, ip.title = "" := h.resolve_left ht
    have hb := buildItems_empty_title _ hitems
    refine ⟨⟨"task item title is required", ?_⟩, ?_⟩ <;> simp [createTask, ht, hb]

/-- The hypothesis of `createTask_validation_guard` holds of the
empty-title demo parameters, where the real and the broken repository
produce the same outcome. -/
theorem createTask_validation_witness :
    createTask pgRepo demoEmptyParams emptyStore
      = createTask brokenRepo demoEmptyParams emptyStore :=
  (createTask_validation_guard pgRepo brokenRepo emptyStore demoEmptyParams
    (Or.inl rfl)).2

/-- Claim C6: for any non-positive id, `GetTask` and `DeleteTask` fail
with the validation error, independently of the repository (so the
repository is never contacted), and `DeleteTask` returns the store
unchanged. -/
theorem id_validation_guard {σ : Type} (repo repo2 : Repo σ) (s : σ)
    (taskID : Int) (h : taskID ≤ 0) :
    getTask repo taskID s = .error (.validation "invalid task ID")
      ∧ deleteTask repo taskID s = (.error (.validation "invalid task ID"), s)
      ∧ getTask repo taskID s = getTask repo2 taskID s
      ∧ deleteTask repo taskID s = deleteTask repo2 taskID s := by
  refine ⟨?_, ?_, ?_, ?_⟩ <;> simp [getTask, deleteTask, h]

/-- The hypothesis of `id_validation_guard` holds at id 0, where
`GetTask` fails with the validation error on the real repository. -/
theorem id_validation_witness :
    getTask pgRepo 0 emptyStore = .error (.validation "invalid task ID") :=
  (id_validation_guard pgRepo brokenRepo emptyStore 0 (by decide)).1

/-- Claim C7 counterexample: deleting the only task of the demo store
succeeds, but the subsequent `GetByID` of the same id fails with the
driver's `sql.ErrNoRows`, not with the `ErrTaskNotFound` sentinel the
claim names. -/
theorem delete_then_get_counterexample :
    (Store.delete 1 demoStore).1 = .ok ()
      ∧ Store.getByID 1 (Store.delete 1 demoStore).2 = .error .noRows
      ∧ DBError.noRows ≠ DBError.taskNotFound :=
  ⟨rfl, rfl, by decide⟩

/-- Claim C7 (amended): `Delete` issues a single delete against the
task table and fails with the `ErrTaskNotFound` sentinel exactly when
zero rows were affected; after a successful `Delete(id)`, `GetByID(id)`
fails with the not-found outcome — concretely the driver's
`sql.ErrNoRows`, not the sentinel. -/
theorem delete_then_get (s : Store) (taskID : Int) :
    ((Store.delete taskID s).1 = .error .taskNotFound
        ↔ s.taskRows.countP (fun r => r.id == taskID) = 0)
      ∧ (∀ s1, Store.delete taskID s = (.ok (), s1) →
          Store.getByID taskID s1 = .error .noRows) := by
  constructor
  · unfold Store.delete
    by_cases hc : s.taskRows.countP (fun r => r.id == taskID) = 0
    · simp [hc]
    · simp [hc]
  · intro s1 hdel
    unfold Store.delete at hdel
    by_cases hc : s.taskRows.countP (fun r => r.id == taskID) = 0
    · rw [if_pos hc] at hdel
      simp at hdel
    · rw [if_neg hc] at hdel
      injection hdel with h1 h2
      subst h2
      unfold Store.getByID
      have hfind : (s.taskRows.filter (fun r => !(r.id == taskID))).find?
          (fun r => r.id == taskID) = none := by
        apply List.find?_eq_none.mpr
        intro r hr
        have hmem := List.mem_filter.mp hr
        simpa using hmem.2
      simp only [hfind]

/-- The hypothesis of `delete_then_get` is discharged at the demo
store: deleting task 1 succeeds and the follow-up read yields the
driver's no-rows error. -/
theorem delete_then_get_witness :
    Store.delete 1 demoStore = (.ok (), (Store.delete 1 demoStore).2)
      ∧ Store.getByID 1 (Store.delete 1 demoStore).2 = .error .noRows := by
  have h : Store.delete 1 demoStore = (.ok (), (Store.delete 1 demoStore).2) := rfl
  exact ⟨h, (delete_then_get demoStore 1).2 _ h⟩

/-- Claim C8: `List` always succeeds, returning every stored task
(hydrated with its items) as a permutation of the task table, in
non-increasing `created_at` order; on the empty store it returns the
empty sequence, not an error. -/
theorem list_ordering_spec (s : Store) :
    Store.list s = .ok ((List.insertionSort createdDesc s.taskRows).map s.hydrate)
      ∧ ((List.insertionSort createdDesc s.taskRows).map s.hydrate).Perm
          (s.taskRows.map s.hydrate)
      ∧ ((List.insertionSort createdDesc s.taskRows).map s.hydrate).Pairwise
          (fun a b => b.createdAt ≤ a.createdAt)
      ∧ Store.list emptyStore = .ok [] := by
  refine ⟨rfl, ?_, ?_, rfl⟩
  · exact (List.perm_insertionSort createdDesc s.taskRows).map s.hydrate
  · have hs := List.sorted_insertionSort createdDesc s.taskRows
    exact hs.map _ (fun a b hab => hab)

/-- Claim C9: the adapter's tag-to-message switch realises exactly the
specified table (any unlisted tag mapping to "invalid"), JSON keys are
the lowercase-first-letter form of the struct field name, and a POST
body missing the task title is answered 400 with body
`{"title":"required"}`. -/
theorem validation_message_table :
    getValidationErrorMessage "required" = "required"
      ∧ getValidationErrorMessage "email" = "invalid email"
      ∧ getValidationErrorMessage "min" = "too short"
      ∧ getValidationErrorMessage "max" = "too long"
      ∧ getValidationErrorMessage "len" = "invalid length"
      ∧ getValidationErrorMessage "numeric" = "must be numeric"
      ∧ getValidationErrorMessage "alpha" = "must contain only letters"
      ∧ getValidationErrorMessage "alphanum" = "must contain only letters and numbers"
      ∧ (∀ tag : String,
          tag ∉ (["required", "email", "min", "max", "len", "numeric", "alpha",
                  "alphanum"] : List String) →
          getValidationErrorMessage tag = "invalid")
      ∧ toJSONFieldName "Title" = "title"
      ∧ handleCreateTask pgRepo
            (.parsed { title := none, description := some "No title", items := none })
            emptyStore
          = ({ status := 400, body := .fieldMap [("title", "required")] }, emptyStore) := by
  refine ⟨rfl, rfl, rfl, rfl, rfl, rfl, rfl, rfl, ?_, by decide, by decide⟩
  intro tag htag
  simp only [List.mem_cons, List.not_mem_nil, or_false] at htag
  push_neg at htag
  obtain ⟨h1, h2, h3, h4, h5, h6, h7, h8⟩ := htag
  simp [getValidationErrorMessage, h1, h2, h3, h4, h5, h6, h7, h8]

/-- The unlisted-tag hypothesis of `validation_message_table` holds at
the concrete tag `"uuid"`, which maps to "invalid". -/
theorem validation_message_witness :
    getValidationErrorMessage "uuid" = "invalid" :=
  validation_message_table.2.2.2.2.2.2.2.2.1 "uuid" (by decide)

/-- Appending through `GoSlice.append1` from a non-nil accumulator
yields a non-nil slice holding the mapped elements in order. -/
theorem gosliceFoldlAppend {α β : Type} (f : α → β) (l : List α) :
    ∀ acc : List β,
      l.foldl (fun a x => GoSlice.append1 a (f x)) (some acc) = some (acc ++ l.map f) := by
  induction l with
  | nil => intro acc; simp
  | cons x xs ih =>
      intro acc
      simp only [List.foldl_cons, List.map_cons]
      rw [show GoSlice.append1 (some acc) (f x) = some (acc ++ [f x]) from rfl, ih]
      simp

/-- Claim C10: each layer mapping — use-case `modelToResult`, adapter
`resultToResponse` and `listResultToResponse` — builds its slice with
make-then-append, so even for a nil input slice the output slice is
non-nil (serialised as a JSON array, never `null`) and carries every
field value with the input order preserved. -/
theorem mapping_slices_non_nil :
    (∀ t : Task, modelToResult t =
        { id := t.id, title := t.title, description := t.description,
          createdAt := t.createdAt, updatedAt := t.updatedAt,
          items := some (t.items.toList.map itemResultOfModel) })
      ∧ (∀ r : TaskResult, resultToResponse r =
          { id := r.id, title := r.title, description := r.description,
            createdAt := r.createdAt, updatedAt := r.updatedAt,
            items := some (r.items.toList.map itemResultToResponse) })
      ∧ (∀ lr : TaskListResult, listResultToResponse lr =
          { tasks := some (lr.tasks.toList.map resultToResponse) })
      ∧ (∀ t : Task, (modelToResult t).items.jsonKind = "array")
      ∧ (∀ r : TaskResult, (resultToResponse r).items.jsonKind = "array")
      ∧ (∀ lr : TaskListResult, (listResultToResponse lr).tasks.jsonKind = "array") := by
  have h1 : ∀ t : Task, modelToResult t =
      { id := t.id, title := t.title, description := t.description,
        createdAt := t.createdAt, updatedAt := t.updatedAt,
        items := some (t.items.toList.map itemResultOfModel) } := by
    intro t
    simp [modelToResult, GoSlice.make0, gosliceFoldlAppend]
  have h2 : ∀ r : TaskResult, resultToResponse r =
      { id := r.id, title := r.title, description := r.description,
        createdAt := r.createdAt, updatedAt := r.updatedAt,
        items := some (r.items.toList.map itemResultToResponse) } := by
    intro r
    simp [resultToResponse, GoSlice.make0, gosliceFoldlAppend]
  have h3 : ∀ lr : TaskListResult, listResultToResponse lr =
      { tasks := some (lr.tasks.toList.map resultToResponse) } := by
    intro lr
    simp [listResultToResponse, GoSlice.make0, gosliceFoldlAppend]
  refine ⟨h1, h2, h3, ?_, ?_, ?_⟩
  · intro t; rw [h1 t]; rfl
  · intro r; rw [h2 r]; rfl
  · intro lr; rw [h3 lr]; rfl

end TodoApp
